import Mathlib

/-!
The llbuild tracing facade (`include/llbuild/Basic/Tracing.h`)

A shallow embedding of the header: the global flag `TracingEnabled`, the three
enumerations with their numeric codes, the four backend entry points
(`LLBUILD_TRACE_POINT`, `LLBUILD_TRACE_INTERVAL_BEGIN`,
`LLBUILD_TRACE_INTERVAL_END`, `LLBUILD_TRACE_STRING`) and the three RAII
structs `TracingPoint`, `TracingInterval`, `TracingString`.

Conventions of the embedding:
* `uint32_t` and `uint64_t` values are natural numbers, reduced modulo `2^32`
  and `2^64` wherever the source converts to the type (a constructor parameter,
  a member initialiser, an assignment to a field).
* The backend entry points are preprocessor definitions that a vendored
  `TracingMacros.h` may replace, so the structs are embedded over an arbitrary
  record `Hooks σ` of four operations on a backend state `σ`.
* Constructors and destructors are functions on a `World σ`, the pair of the
  global flag and the backend state.
-/

namespace llbuild

/-! ## Machine integers -/

/-- Conversion to `uint32_t`. -/
def u32 (n : Nat) : Nat := n % 2 ^ 32

/-- Conversion to `uint64_t`. -/
def u64 (n : Nat) : Nat := n % 2 ^ 64

/-! ## Enumerations (lines 52-89) -/

/-- Tracing kind codes (`enum class TraceEventKind`). -/
inductive TraceEventKind where
  | ExecutionQueueJob
  | ExecutionQueueSubprocess
  | EngineTaskCallback
  | EngineQueueItemEvent
  | ExecutionQueueDepth
  deriving DecidableEq, Repr

/-- The enumerator values written in the source (`= 0` .. `= 4`). -/
def TraceEventKind.code : TraceEventKind → Nat
  | .ExecutionQueueJob => 0
  | .ExecutionQueueSubprocess => 1
  | .EngineTaskCallback => 2
  | .EngineQueueItemEvent => 3
  | .ExecutionQueueDepth => 4

/-- Engine task callbacks (`enum class EngineTaskCallbackKind`). -/
inductive EngineTaskCallbackKind where
  | Start
  | ProvidePriorValue
  | ProvideValue
  | InputsAvailable
  deriving DecidableEq, Repr

/-- Enumerator values: `Start = 0`, each later enumerator one more than its
predecessor. -/
def EngineTaskCallbackKind.code : EngineTaskCallbackKind → Nat
  | .Start => 0
  | .ProvidePriorValue => 1
  | .ProvideValue => 2
  | .InputsAvailable => 3

/-- Engine queue processing (`enum class EngineQueueItemKind`). -/
inductive EngineQueueItemKind where
  | RuleToScan
  | InputRequest
  | FinishedInputRequest
  | ReadyTask
  | FinishedTask
  | Waiting
  | FindingCycle
  | BreakingCycle
  deriving DecidableEq, Repr

/-- Enumerator values: `RuleToScan = 0`, each later enumerator one more than
its predecessor. -/
def EngineQueueItemKind.code : EngineQueueItemKind → Nat
  | .RuleToScan => 0
  | .InputRequest => 1
  | .FinishedInputRequest => 2
  | .ReadyTask => 3
  | .FinishedTask => 4
  | .Waiting => 5
  | .FindingCycle => 6
  | .BreakingCycle => 7

/-! ## Backend entry points (lines 18-41) -/

/-- The four backend entry points, as operations on a backend state `σ`.
The kind and the four arguments are passed as numbers; the string entry point
also yields the integer it evaluates to. -/
structure Hooks (σ : Type) where
  LLBUILD_TRACE_POINT : Nat → Nat → Nat → Nat → Nat → σ → σ
  LLBUILD_TRACE_INTERVAL_BEGIN : Nat → Nat → Nat → Nat → Nat → σ → σ
  LLBUILD_TRACE_INTERVAL_END : Nat → Nat → Nat → Nat → Nat → σ → σ
  LLBUILD_TRACE_STRING : Nat → String → σ → Nat × σ

/-- The definitions used when no `TracingMacros.h` provides others
(the `#ifndef` blocks): every argument is cast to `void`, and the string entry
point is a lambda returning `0`. -/
def defaultHooks (σ : Type) : Hooks σ where
  LLBUILD_TRACE_POINT := fun _ _ _ _ _ s => s
  LLBUILD_TRACE_INTERVAL_BEGIN := fun _ _ _ _ _ s => s
  LLBUILD_TRACE_INTERVAL_END := fun _ _ _ _ _ s => s
  LLBUILD_TRACE_STRING := fun _ _ s => (0, s)

/-- One recorded invocation of a backend entry point. -/
inductive HookCall where
  | point (kind arg1 arg2 arg3 arg4 : Nat)
  | intervalBegin (kind arg1 arg2 arg3 arg4 : Nat)
  | intervalEnd (kind arg1 arg2 arg3 arg4 : Nat)
  | stringIntern (kind : Nat) (str : String)
  deriving DecidableEq, Repr

/-- An instrumented backend: every entry point appends one record of its
invocation to a log, and the string entry point answers with `intern kind str`. -/
def recordingHooks (intern : Nat → String → Nat) : Hooks (List HookCall) where
  LLBUILD_TRACE_POINT := fun k a1 a2 a3 a4 log => log ++ [HookCall.point k a1 a2 a3 a4]
  LLBUILD_TRACE_INTERVAL_BEGIN := fun k a1 a2 a3 a4 log =>
    log ++ [HookCall.intervalBegin k a1 a2 a3 a4]
  LLBUILD_TRACE_INTERVAL_END := fun k a1 a2 a3 a4 log =>
    log ++ [HookCall.intervalEnd k a1 a2 a3 a4]
  LLBUILD_TRACE_STRING := fun k s log => (intern k s, log ++ [HookCall.stringIntern k s])

/-- The observable state: the global `TracingEnabled` and the backend state. -/
structure World (σ : Type) where
  TracingEnabled : Bool
  backend : σ

/-- An assignment to the global `TracingEnabled`. -/
def World.setTracingEnabled {σ : Type} (b : Bool) (w : World σ) : World σ :=
  { w with TracingEnabled := b }

/-! ## `TracingPoint` (lines 92-106) -/

/-- The members of `struct TracingPoint`. -/
structure TracingPoint where
  kind : Nat
  arg1 : Nat
  arg2 : Nat
  arg3 : Nat
  arg4 : Nat
  deriving DecidableEq, Repr

/-- The constructor `TracingPoint(kind, arg1, arg2, arg3, arg4)`. The
parameters are `uint64_t`; the member `kind` is `uint32_t(kind)`. In the body
the names denote the parameters, so the entry point receives the enumerator
and the parameter values. -/
def TracingPoint.ctor {σ : Type} (H : Hooks σ) (kind : TraceEventKind)
    (arg1 arg2 arg3 arg4 : Nat) (w : World σ) : TracingPoint × World σ :=
  let arg1 := u64 arg1
  let arg2 := u64 arg2
  let arg3 := u64 arg3
  let arg4 := u64 arg4
  let self : TracingPoint :=
    { kind := u32 kind.code, arg1 := arg1, arg2 := arg2, arg3 := arg3, arg4 := arg4 }
  if w.TracingEnabled then
    (self, { w with backend := H.LLBUILD_TRACE_POINT kind.code arg1 arg2 arg3 arg4 w.backend })
  else
    (self, w)

/-- The call forms that omit trailing arguments; each omitted parameter takes
its default `0`. -/
def TracingPoint.ctor0 {σ : Type} (H : Hooks σ) (kind : TraceEventKind) (w : World σ) :
    TracingPoint × World σ :=
  TracingPoint.ctor H kind 0 0 0 0 w

def TracingPoint.ctor1 {σ : Type} (H : Hooks σ) (kind : TraceEventKind) (arg1 : Nat)
    (w : World σ) : TracingPoint × World σ :=
  TracingPoint.ctor H kind arg1 0 0 0 w

def TracingPoint.ctor2 {σ : Type} (H : Hooks σ) (kind : TraceEventKind) (arg1 arg2 : Nat)
    (w : World σ) : TracingPoint × World σ :=
  TracingPoint.ctor H kind arg1 arg2 0 0 w

def TracingPoint.ctor3 {σ : Type} (H : Hooks σ) (kind : TraceEventKind)
    (arg1 arg2 arg3 : Nat) (w : World σ) : TracingPoint × World σ :=
  TracingPoint.ctor H kind arg1 arg2 arg3 0 w

/-- The struct declares no destructor: the implicit one runs no statement. -/
def TracingPoint.dtor {σ : Type} (_H : Hooks σ) (_self : TracingPoint) (w : World σ) :
    World σ :=
  w

/-! ## `TracingInterval` (lines 113-139) -/

/-- The members of `struct TracingInterval`; `kind` is `const`, the four
arguments are not. -/
structure TracingInterval where
  kind : Nat
  arg1 : Nat
  arg2 : Nat
  arg3 : Nat
  arg4 : Nat
  deriving DecidableEq, Repr

/-- The constructor `TracingInterval(kind, arg1, arg2, arg3, arg4)`. -/
def TracingInterval.ctor {σ : Type} (H : Hooks σ) (kind : TraceEventKind)
    (arg1 arg2 arg3 arg4 : Nat) (w : World σ) : TracingInterval × World σ :=
  let arg1 := u64 arg1
  let arg2 := u64 arg2
  let arg3 := u64 arg3
  let arg4 := u64 arg4
  let self : TracingInterval :=
    { kind := u32 kind.code, arg1 := arg1, arg2 := arg2, arg3 := arg3, arg4 := arg4 }
  if w.TracingEnabled then
    (self,
      { w with
        backend := H.LLBUILD_TRACE_INTERVAL_BEGIN kind.code arg1 arg2 arg3 arg4 w.backend })
  else
    (self, w)

/-- The destructor `~TracingInterval()`: the names denote the members. -/
def TracingInterval.dtor {σ : Type} (H : Hooks σ) (self : TracingInterval) (w : World σ) :
    World σ :=
  if w.TracingEnabled then
    { w with
      backend :=
        H.LLBUILD_TRACE_INTERVAL_END self.kind self.arg1 self.arg2 self.arg3 self.arg4
          w.backend }
  else
    w

/-- Utility wrapper `TracingInterval(EngineTaskCallbackKind arg1)`: delegates
to the general constructor with `uint64_t(arg1)` and the remaining parameters
defaulted. -/
def TracingInterval.ctorTaskCallback {σ : Type} (H : Hooks σ)
    (arg1 : EngineTaskCallbackKind) (w : World σ) : TracingInterval × World σ :=
  TracingInterval.ctor H TraceEventKind.EngineTaskCallback (u64 arg1.code) 0 0 0 w

/-- Utility wrapper `TracingInterval(EngineQueueItemKind arg1)`. -/
def TracingInterval.ctorQueueItem {σ : Type} (H : Hooks σ)
    (arg1 : EngineQueueItemKind) (w : World σ) : TracingInterval × World σ :=
  TracingInterval.ctor H TraceEventKind.EngineQueueItemEvent (u64 arg1.code) 0 0 0 w

/-- The four non-const members a client may assign to. -/
inductive ArgField where
  | arg1
  | arg2
  | arg3
  | arg4
  deriving DecidableEq, Repr

/-- An assignment `interval.argN = v` by the client; the stored value is the
conversion of `v` to `uint64_t`. -/
def TracingInterval.assign (self : TracingInterval) (wr : ArgField × Nat) : TracingInterval :=
  match wr.1 with
  | .arg1 => { self with arg1 := u64 wr.2 }
  | .arg2 => { self with arg2 := u64 wr.2 }
  | .arg3 => { self with arg3 := u64 wr.2 }
  | .arg4 => { self with arg4 := u64 wr.2 }

/-- Reading a member. -/
def TracingInterval.get (self : TracingInterval) : ArgField → Nat
  | .arg1 => self.arg1
  | .arg2 => self.arg2
  | .arg3 => self.arg3
  | .arg4 => self.arg4

/-- A sequence of client assignments, in program order. -/
def TracingInterval.assignAll (self : TracingInterval) (writes : List (ArgField × Nat)) :
    TracingInterval :=
  writes.foldl TracingInterval.assign self

/-- One scope owning an interval: construction, the client assignments, then
destruction at scope exit. -/
def TracingInterval.scope {σ : Type} (H : Hooks σ) (kind : TraceEventKind)
    (arg1 arg2 arg3 arg4 : Nat) (writes : List (ArgField × Nat)) (w : World σ) : World σ :=
  let r := TracingInterval.ctor H kind arg1 arg2 arg3 arg4 w
  TracingInterval.dtor H (r.1.assignAll writes) r.2

/-- The same scope with the sub-kind wrappers. -/
def TracingInterval.scopeTaskCallback {σ : Type} (H : Hooks σ)
    (arg1 : EngineTaskCallbackKind) (writes : List (ArgField × Nat)) (w : World σ) : World σ :=
  let r := TracingInterval.ctorTaskCallback H arg1 w
  TracingInterval.dtor H (r.1.assignAll writes) r.2

def TracingInterval.scopeQueueItem {σ : Type} (H : Hooks σ)
    (arg1 : EngineQueueItemKind) (writes : List (ArgField × Nat)) (w : World σ) : World σ :=
  let r := TracingInterval.ctorQueueItem H arg1 w
  TracingInterval.dtor H (r.1.assignAll writes) r.2

/-- A scope during which the global flag is assigned `flag` after the interval
is constructed and before it is destroyed. -/
def TracingInterval.scopeWithFlagWrite {σ : Type} (H : Hooks σ) (kind : TraceEventKind)
    (arg1 arg2 arg3 arg4 : Nat) (flag : Bool) (w : World σ) : World σ :=
  let r := TracingInterval.ctor H kind arg1 arg2 arg3 arg4 w
  TracingInterval.dtor H r.1 (r.2.setTracingEnabled flag)

/-! ## `TracingString` (lines 142-154) -/

/-- The members of `struct TracingString`, both `const`. -/
structure TracingString where
  kind : Nat
  value : Nat
  deriving DecidableEq, Repr

/-- The constructor `TracingString(kind, str)`:
`value(TracingEnabled ? LLBUILD_TRACE_STRING(kind, str) : 0)`, converted to
`uint64_t`. -/
def TracingString.ctor {σ : Type} (H : Hooks σ) (kind : TraceEventKind) (str : String)
    (w : World σ) : TracingString × World σ :=
  if w.TracingEnabled then
    let r := H.LLBUILD_TRACE_STRING kind.code str w.backend
    ({ kind := u32 kind.code, value := u64 r.1 }, { w with backend := r.2 })
  else
    ({ kind := u32 kind.code, value := u64 0 }, w)

/-- The conversion `operator uint64_t() const`. -/
def TracingString.toUInt64 (self : TracingString) : Nat :=
  self.value

/-! ## Specification-side notions -/

/-- The value a member holds after a sequence of assignments, in the words of
the specification: the value of the last assignment to that member, or the
initial value when the member was never assigned. -/
def currentValue (f : ArgField) (init : Nat) (writes : List (ArgField × Nat)) : Nat :=
  match (writes.filter (fun wr => decide (wr.1 = f))).getLast? with
  | some wr => wr.2
  | none => init

/-- The task-callback sub-kinds in the order the specification lists them. -/
def taskCallbackOrder : List EngineTaskCallbackKind :=
  [.Start, .ProvidePriorValue, .ProvideValue, .InputsAvailable]

/-- The queue-item sub-kinds in the order the specification lists them. -/
def queueItemOrder : List EngineQueueItemKind :=
  [.RuleToScan, .InputRequest, .FinishedInputRequest, .ReadyTask, .FinishedTask, .Waiting,
    .FindingCycle, .BreakingCycle]

/-! ## Basic facts -/

theorem u64_of_lt {a : Nat} (h : a < 2 ^ 64) : u64 a = a :=
  Nat.mod_eq_of_lt h

theorem u64_zero : u64 0 = 0 := rfl

theorem u64_lt (a : Nat) : u64 a < 2 ^ 64 :=
  Nat.mod_lt _ (by decide)

theorem u64_idem (a : Nat) : u64 (u64 a) = u64 a :=
  u64_of_lt (u64_lt a)

theorem traceEventKind_code_lt (kind : TraceEventKind) : kind.code < 5 := by
  cases kind <;> decide

theorem u32_code (kind : TraceEventKind) : u32 kind.code = kind.code := by
  cases kind <;> rfl

theorem u64_taskCallback_code (s : EngineTaskCallbackKind) : u64 s.code = s.code := by
  cases s <;> rfl

theorem u64_queueItem_code (q : EngineQueueItemKind) : u64 q.code = q.code := by
  cases q <;> rfl

/-- Assignments never touch the const member `kind`. -/
theorem interval_assignAll_kind (t : TracingInterval) (writes : List (ArgField × Nat)) :
    (t.assignAll writes).kind = t.kind := by
  unfold TracingInterval.assignAll
  induction writes generalizing t with
  | nil => rfl
  | cons wr rest ih =>
    rw [List.foldl_cons, ih]
    obtain ⟨f, v⟩ := wr
    cases f <;> rfl

/-- With the flag clear the constructor of a point leaves the world alone. -/
theorem point_ctor_disabled {σ : Type} (H : Hooks σ) (kind : TraceEventKind)
    (a1 a2 a3 a4 : Nat) (w : World σ) (h : w.TracingEnabled = false) :
    (TracingPoint.ctor H kind a1 a2 a3 a4 w).2 = w := by
  simp [TracingPoint.ctor, h]

theorem interval_ctor_disabled {σ : Type} (H : Hooks σ) (kind : TraceEventKind)
    (a1 a2 a3 a4 : Nat) (w : World σ) (h : w.TracingEnabled = false) :
    (TracingInterval.ctor H kind a1 a2 a3 a4 w).2 = w := by
  simp [TracingInterval.ctor, h]

theorem interval_dtor_disabled {σ : Type} (H : Hooks σ) (t : TracingInterval)
    (w : World σ) (h : w.TracingEnabled = false) : TracingInterval.dtor H t w = w := by
  simp [TracingInterval.dtor, h]

theorem interval_scope_disabled {σ : Type} (H : Hooks σ) (kind : TraceEventKind)
    (a1 a2 a3 a4 : Nat) (writes : List (ArgField × Nat)) (w : World σ)
    (h : w.TracingEnabled = false) :
    TracingInterval.scope H kind a1 a2 a3 a4 writes w = w := by
  unfold TracingInterval.scope
  simp only [interval_ctor_disabled H kind a1 a2 a3 a4 w h]
  exact interval_dtor_disabled H _ w h

theorem string_ctor_disabled {σ : Type} (H : Hooks σ) (kind : TraceEventKind)
    (str : String) (w : World σ) (h : w.TracingEnabled = false) :
    TracingString.ctor H kind str w = ({ kind := kind.code, value := 0 }, w) := by
  simp [TracingString.ctor, h, u32_code, u64_zero]

/-! ## C1: nothing is emitted while tracing is disabled -/

/-- C1: while `TracingEnabled` is false, constructing a `TracingPoint`,
constructing and later destroying a `TracingInterval` (through the general
constructor or through either sub-kind wrapper, with any client assignments in
between) and constructing a `TracingString` each leave the log of the
instrumented backend exactly as it was, so none of the four entry points is
invoked; the flag is left alone as well. -/
theorem disabled_emits_nothing (intern : Nat → String → Nat) (kind : TraceEventKind)
    (a1 a2 a3 a4 : Nat) (s : EngineTaskCallbackKind) (q : EngineQueueItemKind)
    (writes : List (ArgField × Nat)) (str : String) (w : World (List HookCall))
    (h : w.TracingEnabled = false) :
    (TracingPoint.ctor (recordingHooks intern) kind a1 a2 a3 a4 w).2 = w ∧
    (TracingInterval.ctor (recordingHooks intern) kind a1 a2 a3 a4 w).2 = w ∧
    (∀ t : TracingInterval, TracingInterval.dtor (recordingHooks intern) t w = w) ∧
    TracingInterval.scope (recordingHooks intern) kind a1 a2 a3 a4 writes w = w ∧
    TracingInterval.scopeTaskCallback (recordingHooks intern) s writes w = w ∧
    TracingInterval.scopeQueueItem (recordingHooks intern) q writes w = w ∧
    (TracingString.ctor (recordingHooks intern) kind str w).2 = w := by
  refine ⟨point_ctor_disabled _ kind a1 a2 a3 a4 w h,
    interval_ctor_disabled _ kind a1 a2 a3 a4 w h,
    fun t => interval_dtor_disabled _ t w h,
    interval_scope_disabled _ kind a1 a2 a3 a4 writes w h,
    interval_scope_disabled _ _ _ 0 0 0 writes w h,
    interval_scope_disabled _ _ _ 0 0 0 writes w h, ?_⟩
  rw [string_ctor_disabled _ kind str w h]

/-- Witness for C1, at the scenario of the specification: tracing disabled, an
empty log, a point of kind `ExecutionQueueDepth` with `arg1 = 10`. -/
theorem disabled_emits_nothing_witness :
    (World.mk false ([] : List HookCall)).TracingEnabled = false ∧
    (TracingPoint.ctor1 (recordingHooks (fun _ _ => 7)) TraceEventKind.ExecutionQueueDepth 10
      (World.mk false [])).2.backend = [] :=
  ⟨rfl, congrArg World.backend
    (disabled_emits_nothing (fun _ _ => 7) TraceEventKind.ExecutionQueueDepth 10 0 0 0
      EngineTaskCallbackKind.Start EngineQueueItemKind.RuleToScan [] "" (World.mk false [])
      rfl).1⟩

/-! ## Enabled constructors, for an arbitrary backend -/

theorem point_ctor_enabled {σ : Type} (H : Hooks σ) (kind : TraceEventKind)
    (a1 a2 a3 a4 : Nat) (w : World σ) (h : w.TracingEnabled = true) :
    TracingPoint.ctor H kind a1 a2 a3 a4 w =
      ({ kind := kind.code, arg1 := u64 a1, arg2 := u64 a2, arg3 := u64 a3, arg4 := u64 a4 },
        { w with
          backend :=
            H.LLBUILD_TRACE_POINT kind.code (u64 a1) (u64 a2) (u64 a3) (u64 a4) w.backend }) := by
  simp [TracingPoint.ctor, h, u32_code]

theorem interval_ctor_enabled {σ : Type} (H : Hooks σ) (kind : TraceEventKind)
    (a1 a2 a3 a4 : Nat) (w : World σ) (h : w.TracingEnabled = true) :
    TracingInterval.ctor H kind a1 a2 a3 a4 w =
      ({ kind := kind.code, arg1 := u64 a1, arg2 := u64 a2, arg3 := u64 a3, arg4 := u64 a4 },
        { w with
          backend :=
            H.LLBUILD_TRACE_INTERVAL_BEGIN kind.code (u64 a1) (u64 a2) (u64 a3) (u64 a4)
              w.backend }) := by
  simp [TracingInterval.ctor, h, u32_code]

theorem interval_ctor_fst {σ : Type} (H : Hooks σ) (kind : TraceEventKind)
    (a1 a2 a3 a4 : Nat) (w : World σ) :
    (TracingInterval.ctor H kind a1 a2 a3 a4 w).1 =
      { kind := kind.code, arg1 := u64 a1, arg2 := u64 a2, arg3 := u64 a3, arg4 := u64 a4 } := by
  unfold TracingInterval.ctor
  split <;> simp [u32_code]

theorem interval_dtor_enabled {σ : Type} (H : Hooks σ) (t : TracingInterval)
    (w : World σ) (h : w.TracingEnabled = true) :
    TracingInterval.dtor H t w =
      { w with
        backend := H.LLBUILD_TRACE_INTERVAL_END t.kind t.arg1 t.arg2 t.arg3 t.arg4 w.backend } := by
  simp [TracingInterval.dtor, h]

theorem string_ctor_enabled {σ : Type} (H : Hooks σ) (kind : TraceEventKind)
    (str : String) (w : World σ) (h : w.TracingEnabled = true) :
    TracingString.ctor H kind str w =
      ({ kind := kind.code, value := u64 (H.LLBUILD_TRACE_STRING kind.code str w.backend).1 },
        { w with backend := (H.LLBUILD_TRACE_STRING kind.code str w.backend).2 }) := by
  simp [TracingString.ctor, h, u32_code]

/-! ## C5: the numbering of `TraceEventKind` -/

/-- C5: the codes of `TraceEventKind` are `ExecutionQueueJob = 0`,
`ExecutionQueueSubprocess = 1`, `EngineTaskCallback = 2`,
`EngineQueueItemEvent = 3`, `ExecutionQueueDepth = 4`; the coding is injective
and its range is exactly `0..4`; the code fits 32 bits; the member `kind` of a
point, an interval (also one built by a sub-kind wrapper) and a string is that
code whatever the flag and the backend; and with tracing enabled the kind the
instrumented backend receives from each constructor and from the interval
destructor is that code. -/
theorem traceEventKind_codes :
    TraceEventKind.ExecutionQueueJob.code = 0 ∧
    TraceEventKind.ExecutionQueueSubprocess.code = 1 ∧
    TraceEventKind.EngineTaskCallback.code = 2 ∧
    TraceEventKind.EngineQueueItemEvent.code = 3 ∧
    TraceEventKind.ExecutionQueueDepth.code = 4 ∧
    Function.Injective TraceEventKind.code ∧
    (∀ n : Nat, (∃ kind : TraceEventKind, kind.code = n) ↔ n < 5) ∧
    (∀ kind : TraceEventKind, kind.code < 2 ^ 32) ∧
    (∀ (σ : Type) (H : Hooks σ) (kind : TraceEventKind) (a1 a2 a3 a4 : Nat) (str : String)
        (s : EngineTaskCallbackKind) (q : EngineQueueItemKind) (w : World σ),
      (TracingPoint.ctor H kind a1 a2 a3 a4 w).1.kind = kind.code ∧
      (TracingInterval.ctor H kind a1 a2 a3 a4 w).1.kind = kind.code ∧
      (TracingInterval.ctorTaskCallback H s w).1.kind = 2 ∧
      (TracingInterval.ctorQueueItem H q w).1.kind = 3 ∧
      (TracingString.ctor H kind str w).1.kind = kind.code) ∧
    (∀ (intern : Nat → String → Nat) (kind : TraceEventKind) (a1 a2 a3 a4 : Nat)
        (str : String) (log : List HookCall),
      (TracingPoint.ctor (recordingHooks intern) kind a1 a2 a3 a4 (World.mk true log)).2.backend =
        log ++ [HookCall.point kind.code (u64 a1) (u64 a2) (u64 a3) (u64 a4)] ∧
      (TracingInterval.ctor (recordingHooks intern) kind a1 a2 a3 a4
          (World.mk true log)).2.backend =
        log ++ [HookCall.intervalBegin kind.code (u64 a1) (u64 a2) (u64 a3) (u64 a4)] ∧
      (TracingInterval.dtor (recordingHooks intern)
          (TracingInterval.ctor (recordingHooks intern) kind a1 a2 a3 a4 (World.mk true log)).1
          (World.mk true log)).backend =
        log ++ [HookCall.intervalEnd kind.code (u64 a1) (u64 a2) (u64 a3) (u64 a4)] ∧
      (TracingString.ctor (recordingHooks intern) kind str (World.mk true log)).2.backend =
        log ++ [HookCall.stringIntern kind.code str]) := by
  refine ⟨rfl, rfl, rfl, rfl, rfl, ?_, ?_, ?_, ?_, ?_⟩
  · intro a b hab
    cases a <;> cases b <;> first | rfl | exact absurd hab (by decide)
  · intro n
    constructor
    · rintro ⟨kind, rfl⟩
      exact traceEventKind_code_lt kind
    · intro hn
      interval_cases n
      · exact ⟨.ExecutionQueueJob, rfl⟩
      · exact ⟨.ExecutionQueueSubprocess, rfl⟩
      · exact ⟨.EngineTaskCallback, rfl⟩
      · exact ⟨.EngineQueueItemEvent, rfl⟩
      · exact ⟨.ExecutionQueueDepth, rfl⟩
  · intro kind
    exact lt_trans (traceEventKind_code_lt kind) (by decide)
  · intro σ H kind a1 a2 a3 a4 str s q w
    refine ⟨?_, ?_, ?_, ?_, ?_⟩
    · unfold TracingPoint.ctor
      split <;> simp [u32_code]
    · rw [interval_ctor_fst]
    · unfold TracingInterval.ctorTaskCallback
      rw [interval_ctor_fst]
      rfl
    · unfold TracingInterval.ctorQueueItem
      rw [interval_ctor_fst]
      rfl
    · unfold TracingString.ctor
      split <;> simp [u32_code]
  · intro intern kind a1 a2 a3 a4 str log
    refine ⟨?_, ?_, ?_, ?_⟩
    · rw [point_ctor_enabled _ _ _ _ _ _ _ rfl]
      rfl
    · rw [interval_ctor_enabled _ _ _ _ _ _ _ rfl]
      rfl
    · rw [interval_ctor_fst, interval_dtor_enabled _ _ _ rfl]
      rfl
    · rw [string_ctor_enabled _ _ _ _ rfl]
      rfl

/-! ## C8: a point fires once -/

/-- C8: with `TracingEnabled` true and 64-bit arguments, constructing a
`TracingPoint` appends exactly one record to the log of the instrumented
backend, the point call with the code of the kind and the four arguments
unchanged, and leaves the flag alone; for an arbitrary backend the new backend
state is the result of that one `LLBUILD_TRACE_POINT` call; the stored members
are the same values; the call forms with omitted trailing arguments pass `0`
for them; and the destructor of the point changes nothing. -/
theorem point_fires_once (intern : Nat → String → Nat) (kind : TraceEventKind)
    (a1 a2 a3 a4 : Nat) (w : World (List HookCall))
    (h : w.TracingEnabled = true)
    (h1 : a1 < 2 ^ 64) (h2 : a2 < 2 ^ 64) (h3 : a3 < 2 ^ 64) (h4 : a4 < 2 ^ 64) :
    TracingPoint.ctor (recordingHooks intern) kind a1 a2 a3 a4 w =
      ({ kind := kind.code, arg1 := a1, arg2 := a2, arg3 := a3, arg4 := a4 },
        { TracingEnabled := true,
          backend := w.backend ++ [HookCall.point kind.code a1 a2 a3 a4] }) ∧
    (∀ (σ : Type) (H : Hooks σ) (v : World σ), v.TracingEnabled = true →
      (TracingPoint.ctor H kind a1 a2 a3 a4 v).2 =
        { v with backend := H.LLBUILD_TRACE_POINT kind.code a1 a2 a3 a4 v.backend }) ∧
    (TracingPoint.ctor0 (recordingHooks intern) kind w).2.backend =
      w.backend ++ [HookCall.point kind.code 0 0 0 0] ∧
    (TracingPoint.ctor1 (recordingHooks intern) kind a1 w).2.backend =
      w.backend ++ [HookCall.point kind.code a1 0 0 0] ∧
    (TracingPoint.ctor2 (recordingHooks intern) kind a1 a2 w).2.backend =
      w.backend ++ [HookCall.point kind.code a1 a2 0 0] ∧
    (TracingPoint.ctor3 (recordingHooks intern) kind a1 a2 a3 w).2.backend =
      w.backend ++ [HookCall.point kind.code a1 a2 a3 0] ∧
    (∀ (t : TracingPoint) (v : World (List HookCall)),
      TracingPoint.dtor (recordingHooks intern) t v = v) := by
  obtain ⟨en, log⟩ := w
  simp only at h
  subst h
  refine ⟨?_, ?_, ?_, ?_, ?_, ?_, fun _ _ => rfl⟩
  · rw [point_ctor_enabled _ _ _ _ _ _ _ rfl, u64_of_lt h1, u64_of_lt h2, u64_of_lt h3,
      u64_of_lt h4]
    rfl
  · intro σ H v hv
    rw [point_ctor_enabled _ _ _ _ _ _ _ hv, u64_of_lt h1, u64_of_lt h2, u64_of_lt h3,
      u64_of_lt h4]
  · unfold TracingPoint.ctor0
    rw [point_ctor_enabled _ _ _ _ _ _ _ rfl]
    rfl
  · unfold TracingPoint.ctor1
    rw [point_ctor_enabled _ _ _ _ _ _ _ rfl, u64_of_lt h1]
    rfl
  · unfold TracingPoint.ctor2
    rw [point_ctor_enabled _ _ _ _ _ _ _ rfl, u64_of_lt h1, u64_of_lt h2]
    rfl
  · unfold TracingPoint.ctor3
    rw [point_ctor_enabled _ _ _ _ _ _ _ rfl, u64_of_lt h1, u64_of_lt h2, u64_of_lt h3]
    rfl

/-- Witness for C8: tracing enabled, one earlier record in the log, a point of
kind `ExecutionQueueDepth` with the largest 64-bit value among its arguments. -/
theorem point_fires_once_witness :
    TracingPoint.ctor (recordingHooks (fun _ _ => 7)) TraceEventKind.ExecutionQueueDepth
        10 18446744073709551615 0 5 (World.mk true [HookCall.stringIntern 0 "a"]) =
      ({ kind := 4, arg1 := 10, arg2 := 18446744073709551615, arg3 := 0, arg4 := 5 },
        { TracingEnabled := true,
          backend :=
            [HookCall.stringIntern 0 "a", HookCall.point 4 10 18446744073709551615 0 5] }) :=
  (point_fires_once (fun _ _ => 7) TraceEventKind.ExecutionQueueDepth
    10 18446744073709551615 0 5 (World.mk true [HookCall.stringIntern 0 "a"])
    rfl (by decide) (by decide) (by decide) (by decide)).1

/-! ## C9: the default backend -/

/-- C9: the default entry points return the backend state they are given,
whatever their arguments, and the default string entry point yields `0`; hence
with the default backend, for every value of the flag, a `TracingString` has
value `0` (also through its conversion), and constructing a point, a string,
or constructing and destroying an interval (with any client assignments in
between, through any constructor) leaves the world unchanged. -/
theorem default_hooks_do_nothing (σ : Type) (kind : TraceEventKind) (a1 a2 a3 a4 : Nat)
    (s : EngineTaskCallbackKind) (q : EngineQueueItemKind)
    (writes : List (ArgField × Nat)) (str : String) (w : World σ) :
    (∀ (k b1 b2 b3 b4 : Nat) (st : σ),
      (defaultHooks σ).LLBUILD_TRACE_POINT k b1 b2 b3 b4 st = st ∧
      (defaultHooks σ).LLBUILD_TRACE_INTERVAL_BEGIN k b1 b2 b3 b4 st = st ∧
      (defaultHooks σ).LLBUILD_TRACE_INTERVAL_END k b1 b2 b3 b4 st = st) ∧
    (∀ (k : Nat) (t : String) (st : σ), (defaultHooks σ).LLBUILD_TRACE_STRING k t st = (0, st)) ∧
    (TracingString.ctor (defaultHooks σ) kind str w).1.value = 0 ∧
    (TracingString.ctor (defaultHooks σ) kind str w).1.toUInt64 = 0 ∧
    (TracingString.ctor (defaultHooks σ) kind str w).2 = w ∧
    (TracingPoint.ctor (defaultHooks σ) kind a1 a2 a3 a4 w).2 = w ∧
    (TracingInterval.ctor (defaultHooks σ) kind a1 a2 a3 a4 w).2 = w ∧
    (∀ t : TracingInterval, TracingInterval.dtor (defaultHooks σ) t w = w) ∧
    TracingInterval.scope (defaultHooks σ) kind a1 a2 a3 a4 writes w = w ∧
    TracingInterval.scopeTaskCallback (defaultHooks σ) s writes w = w ∧
    TracingInterval.scopeQueueItem (defaultHooks σ) q writes w = w := by
  have hc : ∀ (k : TraceEventKind) (b1 b2 b3 b4 : Nat),
      (TracingInterval.ctor (defaultHooks σ) k b1 b2 b3 b4 w).2 = w := by
    intro k b1 b2 b3 b4
    unfold TracingInterval.ctor
    split <;> rfl
  have hd : ∀ t : TracingInterval, TracingInterval.dtor (defaultHooks σ) t w = w := by
    intro t
    unfold TracingInterval.dtor
    split <;> rfl
  have hs : ∀ (k : TraceEventKind) (b1 b2 b3 b4 : Nat),
      TracingInterval.scope (defaultHooks σ) k b1 b2 b3 b4 writes w = w := by
    intro k b1 b2 b3 b4
    unfold TracingInterval.scope
    simp only [hc]
    exact hd _
  refine ⟨fun _ _ _ _ _ _ => ⟨rfl, rfl, rfl⟩, fun _ _ _ => rfl, ?_, ?_, ?_, ?_, hc _ _ _ _ _, hd,
    hs _ _ _ _ _, hs _ _ _ _ _, hs _ _ _ _ _⟩
  · unfold TracingString.ctor
    split <;> rfl
  · unfold TracingString.ctor TracingString.toUInt64
    split <;> rfl
  · unfold TracingString.ctor
    split <;> rfl
  · unfold TracingPoint.ctor
    split <;> rfl

/-! ## Client assignments -/

theorem interval_get_assign (t : TracingInterval) (wr : ArgField × Nat) (f : ArgField) :
    (t.assign wr).get f = if wr.1 = f then u64 wr.2 else t.get f := by
  obtain ⟨g, v⟩ := wr
  cases g <;> cases f <;> simp [TracingInterval.assign, TracingInterval.get]

theorem currentValue_nil (f : ArgField) (init : Nat) : currentValue f init [] = init := rfl

theorem currentValue_concat (f : ArgField) (init : Nat) (writes : List (ArgField × Nat))
    (wr : ArgField × Nat) :
    currentValue f init (writes ++ [wr]) =
      if wr.1 = f then wr.2 else currentValue f init writes := by
  unfold currentValue
  by_cases hf : wr.1 = f
  · simp [List.filter_append, hf]
  · simp [List.filter_append, hf]

/-- After a sequence of 64-bit assignments each member holds the value last
assigned to it, or the value it had before when it was never assigned. -/
theorem interval_get_assignAll (t : TracingInterval) (writes : List (ArgField × Nat))
    (hw : ∀ wr ∈ writes, wr.2 < 2 ^ 64) (f : ArgField) :
    (t.assignAll writes).get f = currentValue f (t.get f) writes := by
  induction writes using List.reverseRecOn with
  | nil => rfl
  | append_singleton l wr ih =>
    have hl : ∀ x ∈ l, x.2 < 2 ^ 64 := fun x hx => hw x (List.mem_append_left _ hx)
    have hwr : wr.2 < 2 ^ 64 := hw wr (by simp)
    have hstep : t.assignAll (l ++ [wr]) = (t.assignAll l).assign wr := by
      simp [TracingInterval.assignAll, List.foldl_append]
    rw [hstep, interval_get_assign, currentValue_concat, ih hl, u64_of_lt hwr]

/-- The world after a whole scope, tracing enabled, for an arbitrary backend:
one begin call with the constructor arguments, then one end call with the
members as they stand after the client assignments. -/
theorem interval_scope_enabled {σ : Type} (H : Hooks σ) (kind : TraceEventKind)
    (a1 a2 a3 a4 : Nat) (writes : List (ArgField × Nat)) (w : World σ)
    (h : w.TracingEnabled = true) :
    TracingInterval.scope H kind a1 a2 a3 a4 writes w =
      { TracingEnabled := true,
        backend :=
          H.LLBUILD_TRACE_INTERVAL_END kind.code
            (((TracingInterval.mk kind.code (u64 a1) (u64 a2) (u64 a3) (u64 a4)).assignAll
              writes).get .arg1)
            (((TracingInterval.mk kind.code (u64 a1) (u64 a2) (u64 a3) (u64 a4)).assignAll
              writes).get .arg2)
            (((TracingInterval.mk kind.code (u64 a1) (u64 a2) (u64 a3) (u64 a4)).assignAll
              writes).get .arg3)
            (((TracingInterval.mk kind.code (u64 a1) (u64 a2) (u64 a3) (u64 a4)).assignAll
              writes).get .arg4)
            (H.LLBUILD_TRACE_INTERVAL_BEGIN kind.code (u64 a1) (u64 a2) (u64 a3) (u64 a4)
              w.backend) } := by
  obtain ⟨en, st⟩ := w
  simp only at h
  subst h
  unfold TracingInterval.scope
  rw [interval_ctor_enabled _ _ _ _ _ _ _ rfl, interval_dtor_enabled _ _ _ rfl]
  simp [interval_assignAll_kind, TracingInterval.get]

/-- The same for the instrumented backend, as a statement about the log. -/
theorem interval_scope_recording (intern : Nat → String → Nat) (kind : TraceEventKind)
    (a1 a2 a3 a4 : Nat) (writes : List (ArgField × Nat)) (w : World (List HookCall))
    (h : w.TracingEnabled = true) :
    TracingInterval.scope (recordingHooks intern) kind a1 a2 a3 a4 writes w =
      { TracingEnabled := true,
        backend :=
          w.backend ++
            [HookCall.intervalBegin kind.code (u64 a1) (u64 a2) (u64 a3) (u64 a4),
              HookCall.intervalEnd kind.code
                (((TracingInterval.mk kind.code (u64 a1) (u64 a2) (u64 a3) (u64 a4)).assignAll
                  writes).get .arg1)
                (((TracingInterval.mk kind.code (u64 a1) (u64 a2) (u64 a3) (u64 a4)).assignAll
                  writes).get .arg2)
                (((TracingInterval.mk kind.code (u64 a1) (u64 a2) (u64 a3) (u64 a4)).assignAll
                  writes).get .arg3)
                (((TracingInterval.mk kind.code (u64 a1) (u64 a2) (u64 a3) (u64 a4)).assignAll
                  writes).get .arg4)] } := by
  rw [interval_scope_enabled _ _ _ _ _ _ _ _ h]
  simp [recordingHooks]

/-- C3: with `TracingEnabled` true, 64-bit constructor arguments and any
sequence of 64-bit client assignments, the scope extends the log by the begin
call `(code of kind, a1, a2, a3, a4)` followed by the end call carrying the
code of the kind and, for each member, the value current at destruction: the
value of the last assignment to that member, or the constructor argument when
the member was never assigned. In particular a member whose last assignment
wrote `v` is reported as `v`, and with no assignment at all the end call
repeats the constructor arguments. -/
theorem interval_end_sees_current_values (intern : Nat → String → Nat)
    (kind : TraceEventKind) (a1 a2 a3 a4 : Nat) (writes : List (ArgField × Nat))
    (w : World (List HookCall)) (h : w.TracingEnabled = true)
    (h1 : a1 < 2 ^ 64) (h2 : a2 < 2 ^ 64) (h3 : a3 < 2 ^ 64) (h4 : a4 < 2 ^ 64)
    (hw : ∀ wr ∈ writes, wr.2 < 2 ^ 64) :
    (TracingInterval.scope (recordingHooks intern) kind a1 a2 a3 a4 writes w).backend =
      w.backend ++
        [HookCall.intervalBegin kind.code a1 a2 a3 a4,
          HookCall.intervalEnd kind.code (currentValue .arg1 a1 writes)
            (currentValue .arg2 a2 writes) (currentValue .arg3 a3 writes)
            (currentValue .arg4 a4 writes)] ∧
    (∀ (f : ArgField) (init v : Nat),
      (writes.filter (fun wr => decide (wr.1 = f))).getLast? = some (f, v) →
        currentValue f init writes = v) ∧
    (TracingInterval.scope (recordingHooks intern) kind a1 a2 a3 a4 [] w).backend =
      w.backend ++
        [HookCall.intervalBegin kind.code a1 a2 a3 a4,
          HookCall.intervalEnd kind.code a1 a2 a3 a4] := by
  refine ⟨?_, ?_, ?_⟩
  · rw [interval_scope_recording intern kind a1 a2 a3 a4 writes w h]
    simp only [interval_get_assignAll _ writes hw]
    simp [TracingInterval.get, u64_of_lt h1, u64_of_lt h2, u64_of_lt h3, u64_of_lt h4]
  · intro f init v hv
    simp [currentValue, hv]
  · rw [interval_scope_recording intern kind a1 a2 a3 a4 [] w h]
    simp [TracingInterval.assignAll, TracingInterval.get, u64_of_lt h1, u64_of_lt h2,
      u64_of_lt h3, u64_of_lt h4]

/-- Witness for C3: the second member is assigned twice and the fourth once;
the end call reports the last value of each and the constructor values of the
members left alone. -/
theorem interval_end_sees_current_values_witness :
    (TracingInterval.scope (recordingHooks (fun _ _ => 7)) TraceEventKind.ExecutionQueueSubprocess
        1 2 3 4 [(ArgField.arg2, 42), (ArgField.arg4, 9), (ArgField.arg2, 43)]
        (World.mk true [])).backend =
      [HookCall.intervalBegin 1 1 2 3 4, HookCall.intervalEnd 1 1 43 3 9] :=
  (interval_end_sees_current_values (fun _ _ => 7) TraceEventKind.ExecutionQueueSubprocess
    1 2 3 4 [(ArgField.arg2, 42), (ArgField.arg4, 9), (ArgField.arg2, 43)] (World.mk true [])
    rfl (by decide) (by decide) (by decide) (by decide) (by decide)).1

/-! ## C4: the `ReadyTask` scenario -/

/-- C4, as stated, fails: with tracing enabled and an empty log, an interval
built from `EngineQueueItemKind::ReadyTask` whose second member is then set to
`42` does not produce the calls `(3, 6, 0, 0, 0)` and `(3, 6, 42, 0, 0)`, for
the code of `ReadyTask` is not `6`. -/
theorem readyTask_scenario_counterexample :
    (TracingInterval.scopeQueueItem (recordingHooks (fun _ _ => 0))
        EngineQueueItemKind.ReadyTask [(ArgField.arg2, 42)] (World.mk true [])).backend ≠
      [HookCall.intervalBegin 3 6 0 0 0, HookCall.intervalEnd 3 6 42 0 0] ∧
    EngineQueueItemKind.ReadyTask.code ≠ 6 := by
  decide

/-- C4, amended: with tracing enabled, an interval built from
`EngineQueueItemKind::ReadyTask` whose second member is then set to `42`
extends the log by exactly the begin call `(3, 3, 0, 0, 0)` followed by the end
call `(3, 3, 42, 0, 0)`: the code passed as the first argument for `ReadyTask`
is `3`. -/
theorem readyTask_scenario_amended (intern : Nat → String → Nat) (log : List HookCall) :
    (TracingInterval.scopeQueueItem (recordingHooks intern)
        EngineQueueItemKind.ReadyTask [(ArgField.arg2, 42)] (World.mk true log)).backend =
      log ++ [HookCall.intervalBegin 3 3 0 0 0, HookCall.intervalEnd 3 3 42 0 0] ∧
    EngineQueueItemKind.ReadyTask.code = 3 := by
  refine ⟨?_, rfl⟩
  exact congrArg World.backend
    (interval_scope_recording intern TraceEventKind.EngineQueueItemEvent 3 0 0 0
      [(ArgField.arg2, 42)] (World.mk true log) rfl)

/-! ## C6: the sub-kind wrappers -/

/-- C6: for every task-callback sub-kind `s`, `TracingInterval(s)` yields the
same interval and the same world as
`TracingInterval(EngineTaskCallback, position of s, 0, 0, 0)`, the interval
having kind `2`, first member the position of `s` in the order
Start, ProvidePriorValue, ProvideValue, InputsAvailable, and the other members
`0`; for every queue-item sub-kind `q`, `TracingInterval(q)` yields the same as
`TracingInterval(EngineQueueItemEvent, position of q, 0, 0, 0)`, with kind `3`
and `q` positioned in the order RuleToScan .. BreakingCycle. The code of a
sub-kind is its zero-based position in that order. -/
theorem subkind_wrappers_delegate (σ : Type) (H : Hooks σ) (s : EngineTaskCallbackKind)
    (q : EngineQueueItemKind) (w : World σ) :
    TracingInterval.ctorTaskCallback H s w =
      TracingInterval.ctor H TraceEventKind.EngineTaskCallback (taskCallbackOrder.indexOf s)
        0 0 0 w ∧
    (TracingInterval.ctorTaskCallback H s w).1 =
      { kind := 2, arg1 := taskCallbackOrder.indexOf s, arg2 := 0, arg3 := 0, arg4 := 0 } ∧
    s.code = taskCallbackOrder.indexOf s ∧
    taskCallbackOrder.get? s.code = some s ∧
    TracingInterval.ctorQueueItem H q w =
      TracingInterval.ctor H TraceEventKind.EngineQueueItemEvent (queueItemOrder.indexOf q)
        0 0 0 w ∧
    (TracingInterval.ctorQueueItem H q w).1 =
      { kind := 3, arg1 := queueItemOrder.indexOf q, arg2 := 0, arg3 := 0, arg4 := 0 } ∧
    q.code = queueItemOrder.indexOf q ∧
    queueItemOrder.get? q.code = some q := by
  have hs : s.code = taskCallbackOrder.indexOf s := by cases s <;> rfl
  have hq : q.code = queueItemOrder.indexOf q := by cases q <;> rfl
  refine ⟨?_, ?_, hs, ?_, ?_, ?_, hq, ?_⟩
  · unfold TracingInterval.ctorTaskCallback
    rw [u64_taskCallback_code, hs]
  · unfold TracingInterval.ctorTaskCallback
    rw [interval_ctor_fst, u64_taskCallback_code, u64_taskCallback_code, hs]
    rfl
  · cases s <;> rfl
  · unfold TracingInterval.ctorQueueItem
    rw [u64_queueItem_code, hq]
  · unfold TracingInterval.ctorQueueItem
    rw [interval_ctor_fst, u64_queueItem_code, u64_queueItem_code, hq]
    rfl
  · cases q <;> rfl

/-! ## C7: the value of a `TracingString` -/

/-- C7: when the instrumented backend answers `(kind, str)` with a 64-bit
code, constructing a `TracingString` with `TracingEnabled` true stores that
code and appends exactly one string record to the log, and with
`TracingEnabled` false stores `0` and leaves the log alone; the conversion to
`uint64_t` returns the stored member, which no operation of the struct
modifies. For an arbitrary backend the stored value is the 64-bit conversion
of what the string entry point, invoked once on the incoming backend state,
evaluates to when the flag is set, and `0` otherwise. -/
theorem tracingString_value (intern : Nat → String → Nat) (kind : TraceEventKind)
    (str : String) (w : World (List HookCall))
    (hcode : intern kind.code str < 2 ^ 64) :
    TracingString.ctor (recordingHooks intern) kind str w =
      (if w.TracingEnabled then
        ({ kind := kind.code, value := intern kind.code str },
          { TracingEnabled := true,
            backend := w.backend ++ [HookCall.stringIntern kind.code str] })
      else ({ kind := kind.code, value := 0 }, w)) ∧
    (TracingString.ctor (recordingHooks intern) kind str w).1.toUInt64 =
      (if w.TracingEnabled then intern kind.code str else 0) ∧
    (∀ t : TracingString, t.toUInt64 = t.value) ∧
    (∀ (σ : Type) (H : Hooks σ) (u : World σ),
      (TracingString.ctor H kind str u).1.value =
        (if u.TracingEnabled then u64 (H.LLBUILD_TRACE_STRING kind.code str u.backend).1
        else 0) ∧
      (TracingString.ctor H kind str u).2 =
        (if u.TracingEnabled then
          { u with backend := (H.LLBUILD_TRACE_STRING kind.code str u.backend).2 }
        else u)) := by
  have hmain : TracingString.ctor (recordingHooks intern) kind str w =
      (if w.TracingEnabled then
        ({ kind := kind.code, value := intern kind.code str },
          { TracingEnabled := true,
            backend := w.backend ++ [HookCall.stringIntern kind.code str] })
      else ({ kind := kind.code, value := 0 }, w)) := by
    obtain ⟨en, log⟩ := w
    cases en
    · rw [string_ctor_disabled _ _ _ _ rfl]
      rfl
    · rw [string_ctor_enabled _ _ _ _ rfl]
      simp [recordingHooks, u64_of_lt hcode]
  refine ⟨hmain, ?_, fun _ => rfl, ?_⟩
  · rw [hmain]
    split <;> rfl
  · intro σ H u
    obtain ⟨en, st⟩ := u
    cases en
    · rw [string_ctor_disabled _ _ _ _ rfl]
      exact ⟨rfl, rfl⟩
    · rw [string_ctor_enabled _ _ _ _ rfl]
      exact ⟨rfl, rfl⟩

/-- Witness for C7: a backend that answers with the kind plus the length of
the text, tracing enabled, kind `EngineQueueItemEvent`, text `"abc"`: the
string holds `6` and the log gains one string record. -/
theorem tracingString_value_witness :
    (fun (k : Nat) (t : String) => k + t.length) TraceEventKind.EngineQueueItemEvent.code "abc" <
      2 ^ 64 ∧
    TracingString.ctor (recordingHooks (fun k t => k + t.length))
        TraceEventKind.EngineQueueItemEvent "abc" (World.mk true []) =
      ({ kind := 3, value := 6 },
        { TracingEnabled := true, backend := [HookCall.stringIntern 3 "abc"] }) :=
  ⟨by decide,
    (tracingString_value (fun k t => k + t.length) TraceEventKind.EngineQueueItemEvent "abc"
      (World.mk true []) (by decide)).1⟩

/-! ## C10: the end call follows the flag at destruction -/

/-- C10: the interval keeps no record of whether its begin call was made. The
destructor appends the end record to the log exactly when `TracingEnabled` is
true at destruction, and the constructor appends the begin record exactly when
it is true at construction; so a scope in which the flag is written between the
two extends the log by the begin record if the flag was set at construction,
followed by the end record if it is set at destruction. A flag going from false
to true yields an end record with no begin record, a flag going from true to
false a begin record with no end record, and when the flag has the same value
at both moments the scope yields both records or neither. -/
theorem interval_end_follows_flag_at_destruction (intern : Nat → String → Nat)
    (kind : TraceEventKind) (a1 a2 a3 a4 : Nat) (t : TracingInterval) (flag : Bool)
    (w : World (List HookCall)) :
    (TracingInterval.dtor (recordingHooks intern) t w).backend =
      w.backend ++
        (if w.TracingEnabled then [HookCall.intervalEnd t.kind t.arg1 t.arg2 t.arg3 t.arg4]
        else []) ∧
    (TracingInterval.scopeWithFlagWrite (recordingHooks intern) kind a1 a2 a3 a4 flag w).backend =
      w.backend ++
        (if w.TracingEnabled then
          [HookCall.intervalBegin kind.code (u64 a1) (u64 a2) (u64 a3) (u64 a4)]
        else []) ++
        (if flag then [HookCall.intervalEnd kind.code (u64 a1) (u64 a2) (u64 a3) (u64 a4)]
        else []) ∧
    (TracingInterval.scopeWithFlagWrite (recordingHooks intern) kind a1 a2 a3 a4 true
        (World.mk false w.backend)).backend =
      w.backend ++ [HookCall.intervalEnd kind.code (u64 a1) (u64 a2) (u64 a3) (u64 a4)] ∧
    (TracingInterval.scopeWithFlagWrite (recordingHooks intern) kind a1 a2 a3 a4 false
        (World.mk true w.backend)).backend =
      w.backend ++ [HookCall.intervalBegin kind.code (u64 a1) (u64 a2) (u64 a3) (u64 a4)] ∧
    (TracingInterval.scopeWithFlagWrite (recordingHooks intern) kind a1 a2 a3 a4
        w.TracingEnabled w).backend =
      w.backend ++
        (if w.TracingEnabled then
          [HookCall.intervalBegin kind.code (u64 a1) (u64 a2) (u64 a3) (u64 a4),
            HookCall.intervalEnd kind.code (u64 a1) (u64 a2) (u64 a3) (u64 a4)]
        else []) := by
  have hflag : ∀ (f : Bool) (v : World (List HookCall)),
      (TracingInterval.scopeWithFlagWrite (recordingHooks intern) kind a1 a2 a3 a4 f v).backend =
        v.backend ++
          (if v.TracingEnabled then
            [HookCall.intervalBegin kind.code (u64 a1) (u64 a2) (u64 a3) (u64 a4)]
          else []) ++
          (if f then [HookCall.intervalEnd kind.code (u64 a1) (u64 a2) (u64 a3) (u64 a4)]
          else []) := by
    intro f v
    obtain ⟨en, log⟩ := v
    cases en <;> cases f <;>
      simp [TracingInterval.scopeWithFlagWrite, TracingInterval.ctor, TracingInterval.dtor,
        World.setTracingEnabled, recordingHooks, u32_code]
  refine ⟨?_, hflag flag w, ?_, ?_, ?_⟩
  · obtain ⟨en, log⟩ := w
    cases en <;> simp [TracingInterval.dtor, recordingHooks]
  · rw [hflag]
    simp
  · rw [hflag]
    simp
  · rw [hflag]
    cases w.TracingEnabled <;> simp

end llbuild
